import Mathlib

/-!
# Shallow embedding of package `httpspy` (file `httpspy.go`)

The package decorates a Go `http.ResponseWriter` with two spies:

* `simpleSpy` (returned by `NewSpy`) tracks whether output has started
  (`written`) and which status code was explicitly set (`code`), and
  reports the resolved status via `Code()`;
* `simpleWriteSpy` (returned by `NewWriteSpy`) embeds a `*simpleSpy` and
  additionally buffers the bytes reported written (`buf`) and remembers
  the first write error (`err`).

Modelling conventions:

* byte strings are `List Nat`;
* Go errors are `Option Nat` (`none` is Go `nil`);
* the wrapped `http.ResponseWriter` is external.  Its observable side is
  modelled by two pieces of environment data: the flag `wNil` records
  whether `NewSpy`/`NewWriteSpy` received a nil writer, and `sinkLog`
  records, in order, every call the spy forwarded to the wrapped writer.
  The value an external writer returns from one `Write` call (the count
  `n` and the error) is chosen by the environment and is passed to the
  spy operation as a `WriteResult` argument;
* a Go runtime panic (a method call on a nil interface value, or slicing
  `p[:n]` with `n > len(p)`) is modelled by returning `none` from the
  operation.
-/

/-- Byte strings (`[]byte`) as lists of byte values. -/
abbrev Bytes := List Nat

/-- Go errors: `none` is the nil error, `some k` a concrete non-nil error. -/
abbrev GoErr := Option Nat

/-- The pair an external `http.ResponseWriter` returns from one `Write`
call: the byte count it reports and the error value. -/
structure WriteResult where
  n : Nat
  err : GoErr
deriving Repr, DecidableEq

/-- A call forwarded by the spy to the wrapped `http.ResponseWriter`. -/
inductive SinkEvent
  | write (p : Bytes)
  | writeHeader (code : Int)
deriving Repr, DecidableEq

/-- State of Go struct `simpleSpy` (fields `written` and `code`), together
with the environment data for the wrapped writer: `wNil` says whether the
`w` field holds a nil `http.ResponseWriter`, and `sinkLog` lists the calls
the wrapped writer has received from this spy, in order. -/
structure SimpleSpy where
  wNil : Bool
  written : Bool
  code : Int
  sinkLog : List SinkEvent
deriving Repr, DecidableEq

/-- `NewSpy(w)`: `new(simpleSpy)` zero-initialises `written` to false and
`code` to 0; the wrapped writer has received no calls yet. -/
def NewSpy (wNil : Bool) : SimpleSpy :=
  { wNil := wNil, written := false, code := 0, sinkLog := [] }

namespace SimpleSpy

/-- `simpleSpy.Write`: sets `written = true`, then calls `s.w.Write(p)` and
returns its result verbatim.  If `w` is nil the call `s.w.Write(p)`
dereferences a nil interface and panics (`none`).  `r` is the result the
external writer returns for this call. -/
def Write (s : SimpleSpy) (p : Bytes) (r : WriteResult) :
    Option (Nat × GoErr × SimpleSpy) :=
  let s := { s with written := true }
  if s.wNil then none
  else some (r.n, r.err, { s with sinkLog := s.sinkLog ++ [SinkEvent.write p] })

/-- `simpleSpy.WriteHeader`: if `s.code == 0 && !s.written`, records the
code and forwards the call to the wrapped writer (panicking, `none`, when
`w` is nil); otherwise the call is a silent no-op. -/
def WriteHeader (s : SimpleSpy) (code : Int) : Option SimpleSpy :=
  if s.code == 0 && !s.written then
    if s.wNil then none
    else some { s with code := code,
                       sinkLog := s.sinkLog ++ [SinkEvent.writeHeader code] }
  else some s

/-- `simpleSpy.Code`: returns 200 (`http.StatusOK`) when `code` is 0 but a
write happened, otherwise the stored `code` (0 when nothing happened). -/
def Code (s : SimpleSpy) : Int :=
  if s.code == 0 && s.written then 200 else s.code

/-- `simpleSpy.Header`: returns `s.w.Header()`, panicking (`none`) when `w`
is nil.  The header collection itself is opaque to the spy, so the
successful result is modelled by `Unit`. -/
def Header (s : SimpleSpy) : Option Unit :=
  if s.wNil then none else some ()

end SimpleSpy

/-- One call a client makes to a `Spy`, with the environment's choice of
the wrapped writer's reply for a `Write`. -/
inductive SpyOp
  | write (p : Bytes) (r : WriteResult)
  | writeHeader (code : Int)
deriving Repr, DecidableEq

/-- Effect of one client call on a `simpleSpy` (`none` models a panic). -/
def stepSpy (s : SimpleSpy) : SpyOp → Option SimpleSpy
  | SpyOp.write p r => (s.Write p r).map (fun x => x.2.2)
  | SpyOp.writeHeader c => s.WriteHeader c

/-- Run a sequence of client calls on a `simpleSpy`. -/
def runSpy (s : SimpleSpy) : List SpyOp → Option SimpleSpy
  | [] => some s
  | op :: t => (stepSpy s op).bind (fun s₁ => runSpy s₁ t)

/-- A call that fixes the status decision: any `Write`, or a `WriteHeader`
with a nonzero code (`WriteHeader(0)` leaves `s.code == 0 && !s.written`
true, hence decides nothing). -/
def fixesStatus : SpyOp → Bool
  | SpyOp.write _ _ => true
  | SpyOp.writeHeader c => !(c == 0)

/-- The status decision has been made: output started or a code stored. -/
def statusDecided (s : SimpleSpy) : Bool :=
  s.written || !(s.code == 0)

theorem runSpy_append (s : SimpleSpy) (t₁ t₂ : List SpyOp) :
    runSpy s (t₁ ++ t₂) = (runSpy s t₁).bind (fun s₁ => runSpy s₁ t₂) := by
  induction t₁ generalizing s with
  | nil => simp [runSpy]
  | cons op t ih =>
      simp only [List.cons_append, runSpy, Option.bind_assoc]
      cases stepSpy s op with
      | none => rfl
      | some s₁ => simp [ih]

theorem stepSpy_wNil (s s₁ : SimpleSpy) (op : SpyOp)
    (h : stepSpy s op = some s₁) : s₁.wNil = s.wNil := by
  cases op with
  | write p r =>
      simp only [stepSpy, SimpleSpy.Write] at h
      by_cases hw : s.wNil
      · simp [hw] at h
      · simp [hw] at h
        simp [← h, hw]
  | writeHeader c =>
      simp only [stepSpy, SimpleSpy.WriteHeader] at h
      by_cases hc : (s.code == 0 && !s.written) = true
      · rw [if_pos hc] at h
        by_cases hw : s.wNil
        · simp [hw] at h
        · simp [hw] at h
          simp [← h, hw]
      · rw [if_neg hc] at h
        simp at h
        rw [← h]

theorem stepSpy_total (s : SimpleSpy) (op : SpyOp) (hw : s.wNil = false) :
    ∃ s₁, stepSpy s op = some s₁ := by
  cases op with
  | write p r =>
      refine ⟨{ s with written := true,
                       sinkLog := s.sinkLog ++ [SinkEvent.write p] }, ?_⟩
      simp [stepSpy, SimpleSpy.Write, hw]
  | writeHeader c =>
      by_cases hc : (s.code == 0 && !s.written) = true
      · refine ⟨{ s with code := c,
                         sinkLog := s.sinkLog ++ [SinkEvent.writeHeader c] }, ?_⟩
        simp [stepSpy, SimpleSpy.WriteHeader, hc, hw]
      · exact ⟨s, by simp [stepSpy, SimpleSpy.WriteHeader, hc]⟩

/-- Once decided, a single step neither revokes the decision nor changes
the reported code. -/
theorem stepSpy_code_frozen (s s₁ : SimpleSpy) (op : SpyOp)
    (hd : statusDecided s = true) (h : stepSpy s op = some s₁) :
    statusDecided s₁ = true ∧ s₁.Code = s.Code := by
  cases op with
  | write p r =>
      simp only [stepSpy, SimpleSpy.Write] at h
      by_cases hw : s.wNil
      · simp [hw] at h
      · simp [hw] at h
        rw [← h]
        constructor
        · simp [statusDecided]
        · simp only [SimpleSpy.Code]
          cases hc : (s.code == 0) with
          | false => simp [hc]
          | true =>
              have hwr : s.written = true := by
                cases hwr : s.written with
                | true => rfl
                | false => simp [statusDecided, hwr, hc] at hd
              simp [hc, hwr]
  | writeHeader c =>
      simp only [stepSpy, SimpleSpy.WriteHeader] at h
      have hc : (s.code == 0 && !s.written) = false := by
        cases hwr : s.written with
        | true => simp [hwr]
        | false =>
            cases hcz : (s.code == 0) with
            | false => simp [hcz]
            | true => simp [statusDecided, hwr, hcz] at hd
      simp [hc] at h
      rw [← h]
      exact ⟨hd, rfl⟩

/-- Once decided, a whole run neither revokes the decision nor changes the
reported code. -/
theorem runSpy_code_frozen (t : List SpyOp) (s s₁ : SimpleSpy)
    (hd : statusDecided s = true) (h : runSpy s t = some s₁) :
    statusDecided s₁ = true ∧ s₁.Code = s.Code := by
  induction t generalizing s with
  | nil => simp [runSpy] at h; rw [← h]; exact ⟨hd, rfl⟩
  | cons op t ih =>
      simp only [runSpy] at h
      cases hstep : stepSpy s op with
      | none => rw [hstep] at h; simp at h
      | some s₂ =>
          rw [hstep] at h
          simp at h
          obtain ⟨hd₂, hc₂⟩ := stepSpy_code_frozen s s₂ op hd hstep
          obtain ⟨hd₁, hc₁⟩ := ih s₂ hd₂ h
          exact ⟨hd₁, hc₁.trans hc₂⟩

/-- An undecided state reports code 0. -/
theorem code_of_undecided (s : SimpleSpy) (hd : statusDecided s = false) :
    s.Code = 0 := by
  simp only [statusDecided, Bool.or_eq_false_iff] at hd
  obtain ⟨hw, hc⟩ := hd
  simp at hc
  simp [SimpleSpy.Code, hc, hw]

/-- A write never resets `written` to false: output stays started. -/
theorem stepSpy_written_mono (s s₁ : SimpleSpy) (op : SpyOp)
    (h : stepSpy s op = some s₁) (hwr : s.written = true) :
    s₁.written = true := by
  cases op with
  | write p r =>
      simp only [stepSpy, SimpleSpy.Write] at h
      by_cases hw : s.wNil
      · simp [hw] at h
      · simp [hw] at h
        simp [← h]
  | writeHeader c =>
      simp only [stepSpy, SimpleSpy.WriteHeader, hwr] at h
      simp at h
      rw [← h]
      exact hwr

theorem runSpy_written_mono (t : List SpyOp) (s s₁ : SimpleSpy)
    (h : runSpy s t = some s₁) (hwr : s.written = true) :
    s₁.written = true := by
  induction t generalizing s with
  | nil => simp [runSpy] at h; rw [← h]; exact hwr
  | cons op t ih =>
      simp only [runSpy] at h
      cases hstep : stepSpy s op with
      | none => rw [hstep] at h; simp at h
      | some s₂ =>
          rw [hstep] at h; simp at h
          exact ih s₂ h (stepSpy_written_mono s s₂ op hstep hwr)

/-- A step from an undecided state decides the status exactly when the
call is a `Write` or a `WriteHeader` with nonzero code. -/
theorem stepSpy_decides (s s₁ : SimpleSpy) (op : SpyOp)
    (hd : statusDecided s = false) (h : stepSpy s op = some s₁) :
    statusDecided s₁ = fixesStatus op := by
  simp only [statusDecided, Bool.or_eq_false_iff] at hd
  obtain ⟨hwr, hcz⟩ := hd
  simp at hcz
  cases op with
  | write p r =>
      simp only [stepSpy, SimpleSpy.Write] at h
      by_cases hw : s.wNil <;> simp [hw] at h
      rw [← h]
      simp [statusDecided, fixesStatus]
  | writeHeader c =>
      simp only [stepSpy, SimpleSpy.WriteHeader, hcz, hwr] at h
      by_cases hw : s.wNil <;> simp [hw] at h
      rw [← h]
      simp [statusDecided, fixesStatus, hwr]

/-- Along a run from an undecided state, the status becomes decided exactly
when some call fixes it. -/
theorem runSpy_decided_iff (t : List SpyOp) (s s₁ : SimpleSpy)
    (h : runSpy s t = some s₁) (hd : statusDecided s = false) :
    statusDecided s₁ = t.any fixesStatus := by
  induction t generalizing s with
  | nil => simp [runSpy] at h; rw [← h]; simp [hd]
  | cons op t ih =>
      simp only [runSpy] at h
      cases hstep : stepSpy s op with
      | none => rw [hstep] at h; simp at h
      | some s₂ =>
          rw [hstep] at h; simp at h
          have hdec := stepSpy_decides s s₂ op hd hstep
          cases hop : fixesStatus op with
          | true =>
              rw [hop] at hdec
              have := (runSpy_code_frozen t s₂ s₁ hdec h).1
              simp [List.any_cons, hop, this]
          | false =>
              rw [hop] at hdec
              have := ih s₂ h hdec
              simp [List.any_cons, hop, this]

/-- State of Go struct `simpleWriteSpy`: the embedded `*simpleSpy`, the
contents of the `bytes.Buffer` field `buf`, and the first-error field
`err`. -/
structure SimpleWriteSpy where
  spy : SimpleSpy
  buf : Bytes
  err : GoErr
deriving Repr, DecidableEq

/-- `NewWriteSpy(w)`: fresh `simpleWriteSpy` with a fresh embedded
`simpleSpy`, an empty buffer and a nil error. -/
def NewWriteSpy (wNil : Bool) : SimpleWriteSpy :=
  { spy := NewSpy wNil, buf := [], err := none }

namespace SimpleWriteSpy

/-- `simpleWriteSpy.Write`: calls the embedded `simpleSpy.Write`, appends
`p[:n]` to the buffer when `n > 0` (the slice `p[:n]` panics when
`n > len(p)`), records `err` as the first error when `err` is non-nil and
no error was recorded yet, and returns `(n, err)` verbatim. -/
def Write (s : SimpleWriteSpy) (p : Bytes) (r : WriteResult) :
    Option (Nat × GoErr × SimpleWriteSpy) :=
  match s.spy.Write p r with
  | none => none
  | some (n, err, spy₁) =>
      match (if 0 < n then
               if p.length < n then none
               else some { s with spy := spy₁, buf := s.buf ++ p.take n }
             else some { s with spy := spy₁ }) with
      | none => none
      | some s₂ =>
          some (n, err,
            if err ≠ none ∧ s₂.err = none then { s₂ with err := err } else s₂)

/-- `simpleWriteSpy.Body`: returns the buffer contents. -/
def Body (s : SimpleWriteSpy) : Bytes := s.buf

/-- `simpleWriteSpy.WriteErr`: returns the recorded first error. -/
def WriteErr (s : SimpleWriteSpy) : GoErr := s.err

/-- `simpleWriteSpy.Code`, promoted from the embedded `*simpleSpy`. -/
def Code (s : SimpleWriteSpy) : Int := s.spy.Code

/-- `simpleWriteSpy.WriteHeader`, promoted from the embedded `*simpleSpy`. -/
def WriteHeader (s : SimpleWriteSpy) (code : Int) : Option SimpleWriteSpy :=
  (s.spy.WriteHeader code).map (fun spy₁ => { s with spy := spy₁ })

/-- `simpleWriteSpy.Header`, promoted from the embedded `*simpleSpy`. -/
def Header (s : SimpleWriteSpy) : Option Unit :=
  s.spy.Header

end SimpleWriteSpy

/-- One call a client makes to a `WriteSpy`, including the read accessors.
For a `Write` the environment again supplies the wrapped writer's reply. -/
inductive WOp
  | write (p : Bytes) (r : WriteResult)
  | writeHeader (code : Int)
  | code
  | body
  | writeErr
  | header
deriving Repr, DecidableEq

/-- The read accessors among `WOp`. -/
def isReadOp : WOp → Bool
  | WOp.code => true
  | WOp.body => true
  | WOp.writeErr => true
  | WOp.header => true
  | _ => false

/-- Effect of one client call on a `simpleWriteSpy` (`none` models a
panic).  The bodies of `Code`, `Body` and `WriteErr` only read fields, so
those steps leave the state unchanged; `Header` calls `s.w.Header()`,
which panics when `w` is nil and reads nothing of the spy otherwise. -/
def stepW (s : SimpleWriteSpy) : WOp → Option SimpleWriteSpy
  | WOp.write p r => (s.Write p r).map (fun x => x.2.2)
  | WOp.writeHeader c => s.WriteHeader c
  | WOp.code => some s
  | WOp.body => some s
  | WOp.writeErr => some s
  | WOp.header => (s.Header).map (fun _ => s)

/-- Run a sequence of client calls on a `simpleWriteSpy`. -/
def runW (s : SimpleWriteSpy) : List WOp → Option SimpleWriteSpy
  | [] => some s
  | op :: t => (stepW s op).bind (fun s₁ => runW s₁ t)

/-- A maximally successful write call: the wrapped writer reports all of
`p` written with a nil error. -/
def fullWrite (p : Bytes) : WOp :=
  WOp.write p ⟨p.length, none⟩

theorem runW_append (s : SimpleWriteSpy) (t₁ t₂ : List WOp) :
    runW s (t₁ ++ t₂) = (runW s t₁).bind (fun s₁ => runW s₁ t₂) := by
  induction t₁ generalizing s with
  | nil => simp [runW]
  | cons op t ih =>
      simp only [List.cons_append, runW, Option.bind_assoc]
      cases stepW s op with
      | none => rfl
      | some s₁ => simp [ih]

theorem SimpleSpy.Write_of_writer (s : SimpleSpy) (p : Bytes) (r : WriteResult)
    (hw : s.wNil = false) :
    s.Write p r = some (r.n, r.err,
      { s with written := true,
               sinkLog := s.sinkLog ++ [SinkEvent.write p] }) := by
  simp [SimpleSpy.Write, hw]

theorem SimpleSpy.WriteHeader_of_undecided (s : SimpleSpy) (c : Int)
    (hw : s.wNil = false) (hc : (s.code == 0 && !s.written) = true) :
    s.WriteHeader c = some
      { s with code := c,
               sinkLog := s.sinkLog ++ [SinkEvent.writeHeader c] } := by
  simp only [SimpleSpy.WriteHeader, hc, if_true, hw]
  simp

theorem SimpleSpy.WriteHeader_of_decided (s : SimpleSpy) (c : Int)
    (hc : (s.code == 0 && !s.written) = false) :
    s.WriteHeader c = some s := by
  simp [SimpleSpy.WriteHeader, hc]

/-- Spies do not forge writer identity: a run keeps `wNil`. -/
theorem runSpy_wNil (t : List SpyOp) (s s₁ : SimpleSpy)
    (h : runSpy s t = some s₁) : s₁.wNil = s.wNil := by
  induction t generalizing s with
  | nil => simp [runSpy] at h; rw [← h]
  | cons op t ih =>
      simp only [runSpy] at h
      cases hstep : stepSpy s op with
      | none => rw [hstep] at h; simp at h
      | some s₂ =>
          rw [hstep] at h; simp at h
          exact (ih s₂ h).trans (stepSpy_wNil s s₂ op hstep)

/-- `isWriteOp` recognises the `Write` calls in a trace. -/
def isWriteOp : SpyOp → Bool
  | SpyOp.write _ _ => true
  | SpyOp.writeHeader _ => false

/-- Invariant for runs whose explicit status-set calls all carry code 0:
the stored code stays 0, `written` records whether some write occurred,
and the only forwarded header calls carry code 0. -/
theorem runSpy_zero_header_invariant (t : List SpyOp) (s s₁ : SimpleSpy)
    (h : runSpy s t = some s₁) (hw : s.wNil = false) (hc : s.code = 0)
    (hz : ∀ c, SpyOp.writeHeader c ∈ t → c = 0) :
    s₁.code = 0 ∧ s₁.written = (s.written || t.any isWriteOp) ∧
    ∀ c, c ≠ 0 → SinkEvent.writeHeader c ∈ s₁.sinkLog →
      SinkEvent.writeHeader c ∈ s.sinkLog := by
  induction t generalizing s with
  | nil =>
      simp [runSpy] at h
      rw [← h]
      exact ⟨hc, by simp, fun c _ hmem => hmem⟩
  | cons op t ih =>
      simp only [runSpy] at h
      cases op with
      | write p r =>
          rw [show stepSpy s (SpyOp.write p r) = some
                { s with written := true,
                         sinkLog := s.sinkLog ++ [SinkEvent.write p] } by
                simp [stepSpy, SimpleSpy.Write_of_writer s p r hw]] at h
          simp only [Option.some_bind] at h
          obtain ⟨h₁, h₂, h₃⟩ := ih _ h hw hc
            (fun c hmem => hz c (List.mem_cons_of_mem _ hmem))
          refine ⟨h₁, ?_, ?_⟩
          · simp [h₂, List.any_cons, isWriteOp]
          · intro c hcne hmem
            have := h₃ c hcne hmem
            simp only [List.mem_append, List.mem_singleton] at this
            rcases this with hin | habs
            · exact hin
            · exact absurd habs (by simp)
      | writeHeader c₀ =>
          have hc₀ : c₀ = 0 := hz c₀ (List.mem_cons_self _ _)
          subst hc₀
          by_cases hwr : s.written
          · rw [show stepSpy s (SpyOp.writeHeader 0) = some s by
                  simp [stepSpy, SimpleSpy.WriteHeader_of_decided s 0 (by simp [hwr])]] at h
            simp only [Option.some_bind] at h
            obtain ⟨h₁, h₂, h₃⟩ := ih _ h hw hc
              (fun c hmem => hz c (List.mem_cons_of_mem _ hmem))
            exact ⟨h₁, by simp [h₂, List.any_cons, isWriteOp, hwr], h₃⟩
          · rw [show stepSpy s (SpyOp.writeHeader 0) = some
                  { s with code := 0,
                           sinkLog := s.sinkLog ++ [SinkEvent.writeHeader 0] } by
                  simp [stepSpy,
                    SimpleSpy.WriteHeader_of_undecided s 0 hw (by simp [hc, hwr])]] at h
            simp only [Option.some_bind] at h
            obtain ⟨h₁, h₂, h₃⟩ := ih _ h hw rfl
              (fun c hmem => hz c (List.mem_cons_of_mem _ hmem))
            refine ⟨h₁, ?_, ?_⟩
            · simp only at h₂
              simp [h₂, List.any_cons, isWriteOp]
            · intro c hcne hmem
              have := h₃ c hcne hmem
              simp only [List.mem_append, List.mem_singleton] at this
              rcases this with hin | habs
              · exact hin
              · exact absurd habs (by simp [hcne])

theorem SimpleWriteSpy.Write_of_result (s : SimpleWriteSpy) (p : Bytes)
    (r : WriteResult) (hw : s.spy.wNil = false) (hn : r.n ≤ p.length) :
    s.Write p r = some (r.n, r.err,
      { spy := { s.spy with
                   written := true
                   sinkLog := s.spy.sinkLog ++ [SinkEvent.write p] }
        buf := s.buf ++ p.take r.n
        err := if r.err ≠ none ∧ s.err = none then r.err else s.err }) := by
  simp only [SimpleWriteSpy.Write, SimpleSpy.Write_of_writer s.spy p r hw]
  by_cases hpos : 0 < r.n
  · rw [if_pos hpos, if_neg (by omega)]
    by_cases he : r.err ≠ none ∧ s.err = none
    · simp [he]
    · simp [he]
  · have hz : r.n = 0 := by omega
    rw [if_neg hpos]
    by_cases he : r.err ≠ none ∧ s.err = none
    · simp [he, hz]
    · simp [he, hz]

theorem SimpleWriteSpy.Write_overflow (s : SimpleWriteSpy) (p : Bytes)
    (r : WriteResult) (hw : s.spy.wNil = false) (hn : p.length < r.n) :
    s.Write p r = none := by
  simp only [SimpleWriteSpy.Write, SimpleSpy.Write_of_writer s.spy p r hw]
  rw [if_pos (by omega), if_pos hn]

theorem SimpleWriteSpy.Write_of_nilWriter (s : SimpleWriteSpy) (p : Bytes)
    (r : WriteResult) (hw : s.spy.wNil = true) :
    s.Write p r = none := by
  simp [SimpleWriteSpy.Write, SimpleSpy.Write, hw]

theorem stepW_wNil (s s₁ : SimpleWriteSpy) (op : WOp)
    (h : stepW s op = some s₁) : s₁.spy.wNil = s.spy.wNil := by
  cases op with
  | write p r =>
      simp only [stepW] at h
      cases hw : s.spy.wNil with
      | true =>
          rw [SimpleWriteSpy.Write_of_nilWriter s p r hw] at h
          simp at h
      | false =>
          by_cases hn : r.n ≤ p.length
          · rw [SimpleWriteSpy.Write_of_result s p r hw hn] at h
            simp at h
            rw [← h]
            exact hw
          · rw [SimpleWriteSpy.Write_overflow s p r hw (by omega)] at h
            simp at h
  | writeHeader c =>
      simp only [stepW, SimpleWriteSpy.WriteHeader] at h
      cases hsw : s.spy.WriteHeader c with
      | none => rw [hsw] at h; simp at h
      | some spy₁ =>
          rw [hsw] at h
          simp at h
          rw [← h]
          exact stepSpy_wNil s.spy spy₁ (SpyOp.writeHeader c) (by simp [stepSpy, hsw])
  | code => simp [stepW] at h; rw [← h]
  | body => simp [stepW] at h; rw [← h]
  | writeErr => simp [stepW] at h; rw [← h]
  | header =>
      simp only [stepW, SimpleWriteSpy.Header, SimpleSpy.Header] at h
      by_cases hw : s.spy.wNil
      · simp [hw] at h
      · simp [hw] at h
        rw [← h]

/-- With a real wrapped writer every read accessor leaves the spy exactly
as it was: `Code`, `Body` and `WriteErr` only read fields, and `Header`
only calls through to the wrapped writer. -/
theorem stepW_read (s : SimpleWriteSpy) (op : WOp)
    (hr : isReadOp op = true) (hw : s.spy.wNil = false) :
    stepW s op = some s := by
  cases op with
  | write p r => simp [isReadOp] at hr
  | writeHeader c => simp [isReadOp] at hr
  | code => rfl
  | body => rfl
  | writeErr => rfl
  | header => simp [stepW, SimpleWriteSpy.Header, SimpleSpy.Header, hw]

theorem runW_reads (rs : List WOp) (s : SimpleWriteSpy)
    (hrs : ∀ op ∈ rs, isReadOp op = true) (hw : s.spy.wNil = false) :
    runW s rs = some s := by
  induction rs with
  | nil => rfl
  | cons op rs ih =>
      simp only [runW, stepW_read s op (hrs op (List.mem_cons_self _ _)) hw,
        Option.some_bind]
      exact ih (fun op hmem => hrs op (List.mem_cons_of_mem _ hmem))

theorem runW_wNil (t : List WOp) (s s₁ : SimpleWriteSpy)
    (h : runW s t = some s₁) : s₁.spy.wNil = s.spy.wNil := by
  induction t generalizing s with
  | nil => simp [runW] at h; rw [← h]
  | cons op t ih =>
      simp only [runW] at h
      cases hstep : stepW s op with
      | none => rw [hstep] at h; simp at h
      | some s₂ =>
          rw [hstep] at h; simp at h
          exact (ih s₂ h).trans (stepW_wNil s s₂ op hstep)

/-- Fully successful writes extend the buffer by exactly the bytes
written, touch no error, and keep the writer. -/
theorem runW_fullWrites (ps : List Bytes) (s : SimpleWriteSpy)
    (hw : s.spy.wNil = false) :
    ∃ s₁, runW s (ps.map fullWrite) = some s₁ ∧
      s₁.buf = s.buf ++ ps.flatten ∧ s₁.spy.wNil = false ∧ s₁.err = s.err := by
  induction ps generalizing s with
  | nil => exact ⟨s, rfl, by simp, hw, rfl⟩
  | cons p ps ih =>
      have hstep : stepW s (fullWrite p) = some
          { spy := { s.spy with
                       written := true
                       sinkLog := s.spy.sinkLog ++ [SinkEvent.write p] }
            buf := s.buf ++ p
            err := s.err } := by
        simp only [fullWrite, stepW,
          SimpleWriteSpy.Write_of_result s p ⟨p.length, none⟩ hw le_rfl]
        simp [List.take_length]
      obtain ⟨s₁, hrun, hbuf, hw₁, herr⟩ := ih
        { spy := { s.spy with
                     written := true
                     sinkLog := s.spy.sinkLog ++ [SinkEvent.write p] }
          buf := s.buf ++ p
          err := s.err } hw
      refine ⟨s₁, ?_, ?_, hw₁, herr⟩
      · simp only [List.map_cons, runW, hstep, Option.some_bind]
        exact hrun
      · rw [hbuf]
        simp [List.append_assoc]

/-- C1: the claim reads "Code() returns 0 until the first Write or
WriteHeader call; after that first call the value of Code() is fixed and
never changed by any further WriteHeader call".  It fails for a first
call `WriteHeader(0)`: afterwards `Code()` is 0, yet a further
`WriteHeader(404)` changes `Code()` to 404, because `WriteHeader` guards
on `s.code == 0 && !s.written` and storing 0 leaves that guard true. -/
theorem C1_counterexample :
    (runSpy (NewSpy false) [SpyOp.writeHeader 0]).map SimpleSpy.Code
      = some 0 ∧
    (runSpy (NewSpy false) [SpyOp.writeHeader 0, SpyOp.writeHeader 404]).map
        SimpleSpy.Code = some 404 :=
  ⟨rfl, rfl⟩

/-- C1 (amended): for every sequence of calls on a spy over a real
writer, `Code()` returns 0 as long as no `Write` and no `WriteHeader`
with a nonzero code has occurred; after the first such status-fixing
call, the value returned by `Code()` is fixed and is never changed by
any further call (`WriteHeader(0)` alone does not fix it). -/
theorem C1_code_fixed_after_first_decisive_call (t : List SpyOp)
    (s : SimpleSpy) (h : runSpy (NewSpy false) t = some s) :
    (t.any fixesStatus = false → s.Code = 0) ∧
    (t.any fixesStatus = true →
      ∀ t₂ s₂, runSpy s t₂ = some s₂ → s₂.Code = s.Code) := by
  have hiff := runSpy_decided_iff t (NewSpy false) s h rfl
  constructor
  · intro hnone
    exact code_of_undecided s (hiff.trans hnone)
  · intro hsome t₂ s₂ h₂
    exact (runSpy_code_frozen t₂ s s₂ (hiff.trans hsome) h₂).2

/-- C1 witness: a first `Write` fixes `Code()`; a later `Write` leaves
the reported code unchanged. -/
theorem C1_code_fixed_witness :
    SimpleSpy.Code { wNil := false, written := true, code := 0,
                     sinkLog := [SinkEvent.write [1], SinkEvent.write [2]] }
      = SimpleSpy.Code { wNil := false, written := true, code := 0,
                         sinkLog := [SinkEvent.write [1]] } :=
  (C1_code_fixed_after_first_decisive_call [SpyOp.write [1] ⟨1, none⟩]
      { wNil := false, written := true, code := 0,
        sinkLog := [SinkEvent.write [1]] } rfl).2 rfl
    [SpyOp.write [2] ⟨1, none⟩]
    { wNil := false, written := true, code := 0,
      sinkLog := [SinkEvent.write [1], SinkEvent.write [2]] } rfl

/-- C2 (code bug): `NewSpy`'s and `NewWriteSpy`'s documentation promises
that with a nil `http.ResponseWriter` all calls succeed, but the code
never checks `s.w` for nil: `Write`, `WriteHeader` (before any output)
and `Header` all call a method on the nil interface value and panic,
modelled here by `none`. -/
theorem C2_nil_writer_operations_panic :
    SimpleSpy.Write (NewSpy true) [104, 105] ⟨2, none⟩ = none ∧
    SimpleSpy.WriteHeader (NewSpy true) 404 = none ∧
    SimpleSpy.Header (NewSpy true) = none ∧
    SimpleWriteSpy.Write (NewWriteSpy true) [104, 105] ⟨2, none⟩ = none :=
  ⟨rfl, rfl, rfl, rfl⟩

/-- C3: a partial write (count `n < len(p)` with a non-nil error) returns
that error to the caller, appends exactly the first `n` bytes of the
input to the buffer, records the error in `WriteErr()`, and a second
failing write never overwrites the recorded first error. -/
theorem C3_partial_write_error (s : SimpleWriteSpy) (p : Bytes) (n e : Nat)
    (hw : s.spy.wNil = false) (hn : n < p.length) (he : s.err = none) :
    ∃ s₁, s.Write p ⟨n, some e⟩ = some (n, some e, s₁) ∧
      s₁.Body = s.Body ++ p.take n ∧
      s₁.WriteErr = some e ∧
      ∀ (p₂ : Bytes) (r₂ : WriteResult), r₂.n ≤ p₂.length → r₂.err ≠ none →
        ∃ s₂, s₁.Write p₂ r₂ = some (r₂.n, r₂.err, s₂) ∧
          s₂.WriteErr = some e := by
  refine ⟨_, SimpleWriteSpy.Write_of_result s p ⟨n, some e⟩ hw (le_of_lt hn),
    ?_, ?_, ?_⟩
  · simp [SimpleWriteSpy.Body]
  · simp [SimpleWriteSpy.WriteErr, he]
  · intro p₂ r₂ hr₂ hre
    refine ⟨_, SimpleWriteSpy.Write_of_result _ p₂ r₂ hw hr₂, ?_⟩
    simp [SimpleWriteSpy.WriteErr, he]

/-- C3 witness: writing `[1, 2, 3]` with reported count 2 and error 7
buffers `[1, 2]` and records error 7. -/
theorem C3_partial_write_error_witness :
    ((NewWriteSpy false).Write [1, 2, 3] ⟨2, some 7⟩).map
        (fun x => (x.2.2.Body, x.2.2.WriteErr)) = some ([1, 2], some 7) := by
  obtain ⟨s₁, h₁, h₂, h₃, _⟩ :=
    C3_partial_write_error (NewWriteSpy false) [1, 2, 3] 2 7 rfl (by decide) rfl
  rw [h₁]
  simp only [Option.map_some']
  rw [h₂, h₃]
  rfl

/-- C4: after `N` fully successful writes (the wrapped writer accepts all
bytes of each call with a nil error), `Body()` is exactly the
concatenation of the `N` inputs in call order. -/
theorem C4_body_concatenation (ps : List Bytes) :
    (runW (NewWriteSpy false) (ps.map fullWrite)).map SimpleWriteSpy.Body
      = some ps.flatten := by
  obtain ⟨s₁, hrun, hbuf, _, _⟩ := runW_fullWrites ps (NewWriteSpy false) rfl
  rw [hrun]
  simp only [Option.map_some']
  rw [show SimpleWriteSpy.Body s₁ = s₁.buf from rfl, hbuf]
  rfl

/-- C5: after any call sequence over a real writer that contains a `Write`
and whose explicit `WriteHeader` calls all carry code 0, a `WriteHeader(500)`
call leaves the state untouched (so `Code()` still returns the 200
resolved at the first write) and is never forwarded to the wrapped
writer. -/
theorem C5_writeHeader_after_write (t : List SpyOp) (s : SimpleSpy)
    (h : runSpy (NewSpy false) t = some s)
    (hwr : t.any isWriteOp = true)
    (hz : ∀ c, SpyOp.writeHeader c ∈ t → c = 0) :
    s.Code = 200 ∧ stepSpy s (SpyOp.writeHeader 500) = some s ∧
      SinkEvent.writeHeader 500 ∉ s.sinkLog := by
  obtain ⟨hc, hw, hlog⟩ :=
    runSpy_zero_header_invariant t (NewSpy false) s h rfl rfl hz
  have hwr₁ : s.written = true := by
    rw [hw, hwr]
    rfl
  refine ⟨?_, ?_, ?_⟩
  · simp [SimpleSpy.Code, hc, hwr₁]
  · simp [stepSpy, SimpleSpy.WriteHeader_of_decided s 500 (by simp [hwr₁])]
  · intro hmem
    have := hlog 500 (by norm_num) hmem
    simp [NewSpy] at this

/-- C5 witness: one successful two-byte write, then `WriteHeader(500)`. -/
theorem C5_writeHeader_after_write_witness :
    SimpleSpy.Code { wNil := false, written := true, code := 0,
                     sinkLog := [SinkEvent.write [104, 105]] } = 200 ∧
    stepSpy { wNil := false, written := true, code := 0,
              sinkLog := [SinkEvent.write [104, 105]] }
        (SpyOp.writeHeader 500)
      = some { wNil := false, written := true, code := 0,
               sinkLog := [SinkEvent.write [104, 105]] } ∧
    SinkEvent.writeHeader 500 ∉
      ({ wNil := false, written := true, code := 0,
         sinkLog := [SinkEvent.write [104, 105]] } : SimpleSpy).sinkLog :=
  C5_writeHeader_after_write [SpyOp.write [104, 105] ⟨2, none⟩]
    { wNil := false, written := true, code := 0,
      sinkLog := [SinkEvent.write [104, 105]] } rfl rfl
    (by intro c hc; simp at hc)

/-- C6: if the first operation on a fresh spy over a real writer is a
`Write` (whatever count and error the writer reports), `Code()` returns
200 afterwards. -/
theorem C6_first_write_resolves_200 (p : Bytes) (r : WriteResult) :
    (stepSpy (NewSpy false) (SpyOp.write p r)).map SimpleSpy.Code
      = some 200 := by
  have hstep : stepSpy (NewSpy false) (SpyOp.write p r) = some
      { wNil := false, written := true, code := 0,
        sinkLog := [SinkEvent.write p] } := by
    show ((NewSpy false).Write p r).map (fun x => x.2.2) = _
    rw [SimpleSpy.Write_of_writer (NewSpy false) p r rfl]
    rfl
  rw [hstep]
  rfl

/-- C8: a first `WriteHeader(0)` does not fix the status: `Code()` still
returns 0, and a later `WriteHeader(c)` with `c ≠ 0` (and no intervening
`Write`) records `c`, forwards it to the wrapped writer, and makes
`Code()` return `c`. -/
theorem C8_writeHeader_zero_keeps_undecided (c : Int) (_hc : c ≠ 0) :
    (runSpy (NewSpy false) [SpyOp.writeHeader 0]).map SimpleSpy.Code
      = some 0 ∧
    runSpy (NewSpy false) [SpyOp.writeHeader 0, SpyOp.writeHeader c] =
      some { wNil := false, written := false, code := c,
             sinkLog := [SinkEvent.writeHeader 0, SinkEvent.writeHeader c] } ∧
    (runSpy (NewSpy false) [SpyOp.writeHeader 0, SpyOp.writeHeader c]).map
        SimpleSpy.Code = some c := by
  have h2 : runSpy (NewSpy false) [SpyOp.writeHeader 0, SpyOp.writeHeader c] =
      some { wNil := false, written := false, code := c,
             sinkLog := [SinkEvent.writeHeader 0, SinkEvent.writeHeader c] } :=
    rfl
  refine ⟨rfl, h2, ?_⟩
  rw [h2]
  simp [SimpleSpy.Code]

/-- C8 witness at `c = 404`. -/
theorem C8_writeHeader_zero_witness :
    (runSpy (NewSpy false) [SpyOp.writeHeader 0]).map SimpleSpy.Code
      = some 0 ∧
    runSpy (NewSpy false) [SpyOp.writeHeader 0, SpyOp.writeHeader 404] =
      some { wNil := false, written := false, code := 404,
             sinkLog := [SinkEvent.writeHeader 0,
                         SinkEvent.writeHeader 404] } ∧
    (runSpy (NewSpy false) [SpyOp.writeHeader 0, SpyOp.writeHeader 404]).map
        SimpleSpy.Code = some 404 :=
  C8_writeHeader_zero_keeps_undecided 404 (by norm_num)

/-- C9: a first `Write` whose transfer fails completely (count 0, non-nil
error) still fixes the status: `Code()` returns 200 from then on, and
every subsequent `WriteHeader` call, after any further calls, is a no-op
that is not forwarded to the wrapped writer (the state, its forwarded-call
log included, is unchanged). -/
theorem C9_failed_first_write_still_fixes (p : Bytes) (e : Nat)
    (t : List SpyOp) (s₁ s₂ : SimpleSpy) (c : Int)
    (h₁ : stepSpy (NewSpy false) (SpyOp.write p ⟨0, some e⟩) = some s₁)
    (h₂ : runSpy s₁ t = some s₂) :
    s₁.Code = 200 ∧ s₂.Code = 200 ∧
      stepSpy s₂ (SpyOp.writeHeader c) = some s₂ := by
  rw [show stepSpy (NewSpy false) (SpyOp.write p ⟨0, some e⟩) = some
        { wNil := false, written := true, code := 0,
          sinkLog := [SinkEvent.write p] } from by
      show ((NewSpy false).Write p ⟨0, some e⟩).map (fun x => x.2.2) = _
      rw [SimpleSpy.Write_of_writer (NewSpy false) p ⟨0, some e⟩ rfl]
      rfl]
    at h₁
  simp at h₁
  subst h₁
  refine ⟨rfl, ?_, ?_⟩
  · exact (runSpy_code_frozen t
      { wNil := false, written := true, code := 0,
        sinkLog := [SinkEvent.write p] } s₂ rfl h₂).2.trans rfl
  · have hwr : s₂.written = true := runSpy_written_mono t _ s₂ h₂ rfl
    simp [stepSpy, SimpleSpy.WriteHeader_of_decided s₂ c (by simp [hwr])]

/-- C9 witness: failed write of `[1]`, then `WriteHeader(404)`, then
`WriteHeader(500)`. -/
theorem C9_failed_first_write_witness :
    SimpleSpy.Code { wNil := false, written := true, code := 0,
                     sinkLog := [SinkEvent.write [1]] } = 200 ∧
    SimpleSpy.Code { wNil := false, written := true, code := 0,
                     sinkLog := [SinkEvent.write [1]] } = 200 ∧
    stepSpy { wNil := false, written := true, code := 0,
              sinkLog := [SinkEvent.write [1]] } (SpyOp.writeHeader 500)
      = some { wNil := false, written := true, code := 0,
               sinkLog := [SinkEvent.write [1]] } :=
  C9_failed_first_write_still_fixes [1] 7 [SpyOp.writeHeader 404]
    { wNil := false, written := true, code := 0,
      sinkLog := [SinkEvent.write [1]] }
    { wNil := false, written := true, code := 0,
      sinkLog := [SinkEvent.write [1]] } 500 rfl rfl

/-- C10: over a real writer, the read accessors (`Code`, `Body`,
`WriteErr`, `Header`) never modify the spy: each such step returns the
state unchanged, so repeating an accessor returns the same result, and
inserting any block of accessor calls into a call sequence does not
change the outcome of the sequence. -/
theorem C10_read_accessors_pure (s : SimpleWriteSpy)
    (hw : s.spy.wNil = false) (t₁ rs t₂ : List WOp)
    (hrs : ∀ op ∈ rs, isReadOp op = true) :
    (∀ op, isReadOp op = true → stepW s op = some s) ∧
    runW s (t₁ ++ (rs ++ t₂)) = runW s (t₁ ++ t₂) := by
  constructor
  · intro op hop
    exact stepW_read s op hop hw
  · rw [runW_append, runW_append]
    cases hrun : runW s t₁ with
    | none => rfl
    | some s₁ =>
        have hw₁ : s₁.spy.wNil = false := (runW_wNil t₁ s s₁ hrun).trans hw
        simp only [Option.some_bind]
        rw [runW_append, runW_reads rs s₁ hrs hw₁]
        simp

/-- C10 witness: a write, all four accessors, then a header call. -/
theorem C10_read_accessors_pure_witness :
    runW (NewWriteSpy false)
        ([fullWrite [104]] ++
          ([WOp.code, WOp.body, WOp.writeErr, WOp.header] ++
            [WOp.writeHeader 404]))
      = runW (NewWriteSpy false) ([fullWrite [104]] ++ [WOp.writeHeader 404]) :=
  (C10_read_accessors_pure (NewWriteSpy false) rfl [fullWrite [104]]
      [WOp.code, WOp.body, WOp.writeErr, WOp.header] [WOp.writeHeader 404]
      (by decide)).2
